import Mathlib

/-!
# The quickstart example of claude-code-sdk-go

A shallow embedding of `examples/quickstart/main.go`: the message printer
`processMessage`, the three example queries `simpleQuery`, `queryWithOptions`
and `queryWithTools`, and `main`.

The program is effectful.  Every function is embedded as a pure function that
returns a `Run`: the list of effects it performs, in program order, and how it
ends (a returned value, or a Go run-time panic).  What the outside world answers
(`claudecode.Query`, `os.MkdirTemp`, `os.ReadFile`) is read from an `Env`.

The package `pkg/claudecode` is not part of the sources at hand.  Its types are
declared here from their use in `main.go` and from the data model of the
specification; its payload types that `main.go` only formats with `%v` or `%.4f`
are type parameters `V` (structured payload) and `C` (cost), and the formatting
verbs on them are the fields of `Fmt`.
-/

namespace Quickstart

/-! ## Go errors -/

/-- Go `error` values: a leaf error carrying its text, or an error built by
`fmt.Errorf` with the `%w` verb, which carries its text and the wrapped error. -/
inductive GoError where
  | errorString (s : String)
  | wrapError (msg : String) (err : GoError)
  deriving DecidableEq, Repr

/-- The method `Error()`: the text of an error. -/
def GoError.Error : GoError → String
  | .errorString s => s
  | .wrapError msg _ => msg

/-- The method `Unwrap()` as seen by `errors.Unwrap`. -/
def GoError.Unwrap : GoError → Option GoError
  | .errorString _ => none
  | .wrapError _ err => some err

/-- The call `fmt.Errorf(text)` with no verb in `text`. -/
def Errorf (text : String) : GoError := .errorString text

/-- The call `fmt.Errorf(lead ++ "%w", err)`. -/
def ErrorfW (lead : String) (err : GoError) : GoError :=
  .wrapError (lead ++ err.Error) err

/-! ## The data model of `pkg/claudecode`, as `main.go` uses it -/

/-- Modelled from the spec: the closed enumeration `PermissionMode` (default,
accept-edits, and others reserved); `main.go` names only
`PermissionModeAcceptEdits`. -/
inductive PermissionMode where
  | PermissionModeDefault
  | PermissionModeAcceptEdits
  | reserved (tag : String)
  deriving DecidableEq, Repr

/-- Modelled from the spec: the configuration `ClaudeCodeOptions`, with the five
named fields of the data model.  `main.go` assigns `SystemPrompt`, `MaxTurns`,
`AllowedTools`, `PermissionMode` and `Cwd`; pointer fields are `Option`s. -/
structure ClaudeCodeOptions where
  SystemPrompt : Option String
  MaxTurns : Option Int
  AllowedTools : List String
  PermissionMode : Option PermissionMode
  Cwd : Option String
  deriving DecidableEq, Repr

/-- Modelled from the spec: the interface `claudecode.ContentBlock`, whose
declaration is in the absent package.  A content block is a Go interface value:
one of the three block types of the data model, which `processMessage` switches
on (fields as `main.go` reads them), or a value of any other dynamic type. -/
inductive ContentBlock (V : Type) where
  | TextBlock (Text : String)
  | ToolUseBlock (Name : String) (Input : V)
  | ToolResultBlock (Content : V) (IsError : Option Bool)
  | unlisted (goType : String)
  deriving DecidableEq, Repr

/-- Modelled from the spec: the interface `claudecode.Message`, whose declaration
is in the absent package.  A message is a Go interface value: one of the four
message types of the data model, which `processMessage` switches on (fields as
`main.go` reads them), or a value of any other dynamic type (whose type name `%T`
prints).  `TotalCostUSD` is a pointer in the source (`*m.TotalCostUSD`), the
optional total cost of the data model, hence an `Option`: `none` is the nil
pointer. -/
inductive Message (V C : Type) where
  | UserMessage (Content : String)
  | AssistantMessage (Content : List (ContentBlock V))
  | SystemMessage (Subtype : String) (Data : V)
  | ResultMessage (SessionID : String) (DurationMs : Int) (TotalCostUSD : Option C)
      (IsError : Bool) (Summary : V)
  | unrecognised (goType : String)
  deriving DecidableEq, Repr

/-- The formatting verbs of package `fmt` on the payload types: `%v` on a
structured payload, `%.4f` on a cost. -/
structure Fmt (V C : Type) where
  verbV : V → String
  verbF4 : C → String

/-- The verb `%d` on an integer. -/
def verbD (n : Int) : String := toString n

/-- A context of package `context`. -/
inductive Context where
  | Background
  | WithCancel (parent : Context)
  deriving DecidableEq, Repr

/-! ## Effects and runs -/

/-- The effects of the program, one per call that reaches outside it, plus two
markers: `processMessage` at each call of `processMessage` and `invoke` at each
call of an example from `main`. -/
inductive Event (V C : Type) where
  | stdout (s : String)
  | logPrintf (s : String)
  | Query (ctx : Context) (prompt : String) (options : Option ClaudeCodeOptions)
  | processMessage (msg : Message V C)
  | MkdirTemp (dir : String) (pat : String)
  | RemoveAll (path : String)
  | ReadFile (name : String)
  | signalNotify
  | cancel (ctx : Context)
  | invoke (fn : String) (ctx : Context)
  deriving DecidableEq, Repr

/-- How a Go function ends: it returns a value, or it panics. -/
inductive Outcome (α : Type) where
  | ret (a : α)
  | panic (msg : String)
  deriving DecidableEq, Repr

/-- The effects of a call, in program order, and how the call ends. -/
structure Run (V C α : Type) where
  events : List (Event V C)
  res : Outcome α

/-- Sequencing: the second part runs only if the first returns. -/
def Run.bind {V C α β : Type} (r : Run V C α) (k : α → Run V C β) : Run V C β :=
  match r.res with
  | .ret a => ⟨r.events ++ (k a).events, (k a).res⟩
  | .panic p => ⟨r.events, .panic p⟩

/-- A single effect. -/
def emit {V C : Type} (e : Event V C) : Run V C Unit := ⟨[e], .ret ()⟩

/-- A `defer` statement: the deferred effect runs when the body ends, whether it
returns or panics, and the body's outcome stands. -/
def Run.defer {V C α : Type} (body : Run V C α) (e : Event V C) : Run V C α :=
  ⟨body.events ++ [e], body.res⟩

/-- What a run writes to standard output. -/
def stdoutOf {V C : Type} : List (Event V C) → String
  | [] => ""
  | .stdout s :: es => s ++ stdoutOf es
  | _ :: es => stdoutOf es

/-- The messages handed to `processMessage`, in call order. -/
def processedOf {V C : Type} : List (Event V C) → List (Message V C)
  | [] => []
  | .processMessage m :: es => m :: processedOf es
  | _ :: es => processedOf es

/-- The text of the run-time panic raised by dereferencing a nil pointer. -/
def nilDereference : String :=
  "runtime error: invalid memory address or nil pointer dereference"

/-! ## `processMessage` (main.go, lines 127-162) -/

/-- The body of the loop over the content blocks (lines 136-143). -/
def printBlock {V C : Type} (F : Fmt V C) : ContentBlock V → List (Event V C)
  | .TextBlock text => [.stdout text]
  | .ToolUseBlock name input =>
      [.stdout ("\n[Tool Use - " ++ name ++ "]: " ++ F.verbV input ++ "\n")]
  | .ToolResultBlock content _ =>
      [.stdout ("[Tool Result]: " ++ F.verbV content ++ "\n")]
  | .unlisted _ => []

/-- The loop `for _, block := range m.Content` (lines 135-144). -/
def printBlocks {V C : Type} (F : Fmt V C) : List (ContentBlock V) → List (Event V C)
  | [] => []
  | block :: rest => printBlock F block ++ printBlocks F rest

/-- The function `processMessage`.  In the `ResultMessage` case the arguments of
`Printf` are evaluated first, so a nil `TotalCostUSD` panics before anything is
printed. -/
def processMessage {V C : Type} (F : Fmt V C) : Message V C → Run V C (Option GoError)
  | .UserMessage content => ⟨[.stdout ("[User]: " ++ content ++ "\n")], .ret none⟩
  | .AssistantMessage content =>
      ⟨[.stdout "[Assistant]: "] ++ printBlocks F content ++ [.stdout "\n"], .ret none⟩
  | .SystemMessage subtype data =>
      ⟨[.stdout ("[System - " ++ subtype ++ "]: " ++ F.verbV data ++ "\n")], .ret none⟩
  | .ResultMessage sessionID durationMs totalCostUSD isError _ =>
      match totalCostUSD with
      | none => ⟨[], .panic nilDereference⟩
      | some cost =>
          ⟨[.stdout ("\n[Result]: Session ID: " ++ sessionID ++ ", Duration: "
              ++ verbD durationMs ++ "ms, Cost: $" ++ F.verbF4 cost ++ "\n")],
            if isError then .ret (some (Errorf "query ended with error")) else .ret none⟩
  | .unrecognised goType => ⟨[.stdout ("[Unknown Message Type]: " ++ goType ++ "\n")], .ret none⟩

/-! ## The outside world -/

/-- What the calls that leave `main.go` answer.  `Query` answers an immediate
error or the finite sequence of messages that the returned stream yields before
it closes; `MkdirTemp` answers an error or the name of the created directory;
`ReadFile` answers an error or the content of the file. -/
structure Env (V C : Type) where
  /-- Modelled from the spec: `NewClaudeCodeOptions` constructs a fresh
  configuration holding the defaults; which defaults is left open. -/
  NewClaudeCodeOptions : ClaudeCodeOptions
  Query : Context → String → Option ClaudeCodeOptions → Except GoError (List (Message V C))
  MkdirTemp : String → String → Except GoError String
  ReadFile : String → Except GoError String

/-! ## The example queries (main.go, lines 45-125) -/

/-- The loop `for msg := range messages` with the body
`if err := processMessage(msg); err != nil { return err }`, which the three
examples share word for word.  The result `some err` is the `return err` inside
the loop; `none` means that the stream closed and control falls out of the
loop. -/
def rangeLoop {V C : Type} (F : Fmt V C) : List (Message V C) → Run V C (Option GoError)
  | [] => ⟨[], .ret none⟩
  | msg :: rest =>
      ((emit (.processMessage msg)).bind fun _ => processMessage F msg).bind fun err =>
        match err with
        | some e => ⟨[], .ret (some e)⟩
        | none => rangeLoop F rest

/-- The function `simpleQuery`. -/
def simpleQuery {V C : Type} (F : Fmt V C) (E : Env V C) (ctx : Context) :
    Run V C (Option GoError) :=
  (emit (.Query ctx "What is 2 + 2?" none)).bind fun _ =>
    match E.Query ctx "What is 2 + 2?" none with
    | .error err => ⟨[], .ret (some (ErrorfW "failed to query: " err))⟩
    | .ok messages =>
        (rangeLoop F messages).bind fun err =>
          match err with
          | some e => ⟨[], .ret (some e)⟩
          | none => ⟨[], .ret none⟩

/-- The options that `queryWithOptions` builds (lines 66-70). -/
def optionsOfQueryWithOptions {V C : Type} (E : Env V C) : ClaudeCodeOptions :=
  let options := E.NewClaudeCodeOptions
  let systemPrompt := "You are a helpful assistant that responds concisely."
  let options := { options with SystemPrompt := some systemPrompt }
  let maxTurns : Int := 1
  { options with MaxTurns := some maxTurns }

/-- The function `queryWithOptions`. -/
def queryWithOptions {V C : Type} (F : Fmt V C) (E : Env V C) (ctx : Context) :
    Run V C (Option GoError) :=
  let options := optionsOfQueryWithOptions E
  (emit (.Query ctx "Tell me a short joke" (some options))).bind fun _ =>
    match E.Query ctx "Tell me a short joke" (some options) with
    | .error err => ⟨[], .ret (some (ErrorfW "failed to query: " err))⟩
    | .ok messages =>
        (rangeLoop F messages).bind fun err =>
          match err with
          | some e => ⟨[], .ret (some e)⟩
          | none => ⟨[], .ret none⟩

/-- The prompt of `queryWithTools` (line 105). -/
def toolsPrompt : String :=
  "Create a file called hello.txt with the content \x27Hello from Claude SDK!\x27"

/-- The options that `queryWithTools` hands to `Query` (lines 91-93 and 102). -/
def optionsOfQueryWithTools {V C : Type} (E : Env V C) (tempDir : String) : ClaudeCodeOptions :=
  let options := E.NewClaudeCodeOptions
  let options := { options with AllowedTools := ["Read", "Write", "Bash"] }
  let options := { options with PermissionMode := some PermissionMode.PermissionModeAcceptEdits }
  { options with Cwd := some tempDir }

/-- The check of lines 118-122: read `hello.txt` and print a line when the read
succeeds; a failed read is ignored. -/
def verifyFile {V C : Type} (E : Env V C) (tempDir : String) : Run V C Unit :=
  (emit (.ReadFile (tempDir ++ "/hello.txt"))).bind fun _ =>
    match E.ReadFile (tempDir ++ "/hello.txt") with
    | .ok content => emit (.stdout ("\nFile created successfully! Content: " ++ content ++ "\n"))
    | .error _ => ⟨[], .ret ()⟩

/-- The function `queryWithTools`.  The deferred `os.RemoveAll(tempDir)` is
registered once `MkdirTemp` has succeeded. -/
def queryWithTools {V C : Type} (F : Fmt V C) (E : Env V C) (ctx : Context) :
    Run V C (Option GoError) :=
  (emit (.MkdirTemp "" "claude-sdk-example")).bind fun _ =>
    match E.MkdirTemp "" "claude-sdk-example" with
    | .error err => ⟨[], .ret (some (ErrorfW "failed to create temp dir: " err))⟩
    | .ok tempDir =>
        Run.defer
          (let options := optionsOfQueryWithTools E tempDir
           (emit (.Query ctx toolsPrompt (some options))).bind fun _ =>
             match E.Query ctx toolsPrompt (some options) with
             | .error err => ⟨[], .ret (some (ErrorfW "failed to query: " err))⟩
             | .ok messages =>
                 (rangeLoop F messages).bind fun err =>
                   match err with
                   | some e => ⟨[], .ret (some e)⟩
                   | none => (verifyFile E tempDir).bind fun _ => ⟨[], .ret none⟩)
          (.RemoveAll tempDir)

/-! ## `main` (lines 14-43) -/

/-- The statement `if err != nil { log.Printf(lead ++ "%v\n", err) }`. -/
def logIfError {V C : Type} (lead : String) : Option GoError → Run V C Unit
  | none => ⟨[], .ret ()⟩
  | some err => emit (.logPrintf (lead ++ err.Error ++ "\n"))

/-- The main goroutine of `main`.  The goroutine that waits for a signal only
prints a line and cancels `ctx`; it reaches the examples through what `Query`
answers, and it is not part of this run.  A panic that leaves `main` ends the
program after the deferred `cancel()`. -/
def main {V C : Type} (F : Fmt V C) (E : Env V C) : Run V C Unit :=
  let ctx := Context.WithCancel Context.Background
  Run.defer
    ((emit .signalNotify).bind fun _ =>
     (emit (.stdout "=== Example 1: Simple Query ===\n")).bind fun _ =>
     (emit (.invoke "simpleQuery" ctx)).bind fun _ =>
     (simpleQuery F E ctx).bind fun err1 =>
     (logIfError "Error in simple query: " err1).bind fun _ =>
     (emit (.stdout "\n=== Example 2: Query with Options ===\n")).bind fun _ =>
     (emit (.invoke "queryWithOptions" ctx)).bind fun _ =>
     (queryWithOptions F E ctx).bind fun err2 =>
     (logIfError "Error in query with options: " err2).bind fun _ =>
     (emit (.stdout "\n=== Example 3: Using Tools ===\n")).bind fun _ =>
     (emit (.invoke "queryWithTools" ctx)).bind fun _ =>
     (queryWithTools F E ctx).bind fun err3 =>
     logIfError "Error in query with tools: " err3)
    (.cancel ctx)

/-- The calls of the examples made by `main`, in call order. -/
def invokedOf {V C : Type} : List (Event V C) → List (String × Context)
  | [] => []
  | .invoke fn ctx :: es => (fn, ctx) :: invokedOf es
  | _ :: es => invokedOf es

/-- The calls of `Query`, in call order. -/
def queriesOf {V C : Type} : List (Event V C) → List (Context × String × Option ClaudeCodeOptions)
  | [] => []
  | .Query ctx prompt options :: es => (ctx, prompt, options) :: queriesOf es
  | _ :: es => queriesOf es

/-! ## Predicates on messages -/

/-- The message is a `ResultMessage` whose `IsError` is true. -/
def Message.isErrorResult {V C : Type} : Message V C → Bool
  | .ResultMessage _ _ _ isError _ => isError
  | _ => false

/-- The message is a `ResultMessage`. -/
def Message.isResult {V C : Type} : Message V C → Bool
  | .ResultMessage _ _ _ _ _ => true
  | _ => false

/-- The total cost is present when the message is a `ResultMessage`. -/
def Message.costPresent {V C : Type} : Message V C → Bool
  | .ResultMessage _ _ totalCostUSD _ _ => totalCostUSD.isSome
  | _ => true

/-- The spec's stream invariant, with the cost of the final result present:
exactly one `ResultMessage`, which is the last item. -/
def streamInvariant {V C : Type} : List (Message V C) → Bool
  | [] => false
  | [m] => m.isResult && m.costPresent
  | m :: rest => !m.isResult && streamInvariant rest

/-- The last item of the stream is a `ResultMessage` whose `IsError` is true. -/
def finalIsError {V C : Type} : List (Message V C) → Bool
  | [] => false
  | [m] => m.isErrorResult
  | _ :: rest => finalIsError rest

/-- The run returns a non-nil error. -/
def Run.returnsError {V C : Type} (r : Run V C (Option GoError)) : Prop :=
  ∃ e, r.res = .ret (some e)

/-- The run returns nil. -/
def Run.returnsNil {V C : Type} (r : Run V C (Option GoError)) : Prop :=
  r.res = .ret none

/-- The all-absent configuration, for concrete runs. -/
def zeroOptions : ClaudeCodeOptions := ⟨none, none, [], none, none⟩

/-- A concrete world: `Query`, `MkdirTemp` and `ReadFile` answer the same on
every call. -/
def constEnv (q : Except GoError (List (Message String String)))
    (mk : Except GoError String) (rf : Except GoError String) : Env String String :=
  ⟨zeroOptions, fun _ _ _ => q, fun _ _ => mk, fun _ => rf⟩

/-- The stream of the specification's example: an assistant message with the
text "hi", then the record `result(session="s1", duration=5, is_error=false)`,
which carries no total cost. -/
def specStream : List (Message String String) :=
  [.AssistantMessage [.TextBlock "hi"], .ResultMessage "s1" 5 none false ""]

/-- The same stream with the total cost of the result present. -/
def pricedStream : List (Message String String) :=
  [.AssistantMessage [.TextBlock "hi"], .ResultMessage "s1" 5 (some "0.0100") false ""]

/-- What remains of `queryWithTools` once `Query` has answered a stream: the
consume loop, then the check of `hello.txt` (lines 111-124). -/
def toolsAfterQuery {V C : Type} (F : Fmt V C) (E : Env V C) (tempDir : String)
    (messages : List (Message V C)) : Run V C (Option GoError) :=
  (rangeLoop F messages).bind fun err =>
    match err with
    | some e => ⟨[], .ret (some e)⟩
    | none => (verifyFile E tempDir).bind fun _ => ⟨[], .ret none⟩

/-- The events of the check of `hello.txt`. -/
def verifyEvents {V C : Type} (E : Env V C) (tempDir : String) : List (Event V C) :=
  .ReadFile (tempDir ++ "/hello.txt") ::
    match E.ReadFile (tempDir ++ "/hello.txt") with
    | .ok content => [.stdout ("\nFile created successfully! Content: " ++ content ++ "\n")]
    | .error _ => []

/-- A concrete error of the outside world. -/
def startupError : GoError := .errorString "claude CLI not found"

/-- The rendering of a content block in the words of the claim: a `TextBlock` is
its text verbatim, a `ToolUseBlock` a "[Tool Use - name]" line, a
`ToolResultBlock` a "[Tool Result]" line, a block of any other kind nothing. -/
def specRenderBlock {V C : Type} (F : Fmt V C) : ContentBlock V → String
  | .TextBlock text => text
  | .ToolUseBlock name input => "\n[Tool Use - " ++ name ++ "]: " ++ F.verbV input ++ "\n"
  | .ToolResultBlock content _ => "[Tool Result]: " ++ F.verbV content ++ "\n"
  | .unlisted _ => ""

/-- The renderings of the blocks, in sequence order. -/
def specRenderBlocks {V C : Type} (F : Fmt V C) : List (ContentBlock V) → String
  | [] => ""
  | block :: rest => specRenderBlock F block ++ specRenderBlocks F rest

/-- The concatenation of a list of texts. -/
def concatTexts : List String → String
  | [] => ""
  | t :: rest => t ++ concatTexts rest

/-- The context that `main` creates and hands to the three examples. -/
def mainCtx : Context := Context.WithCancel Context.Background

/-- The events of `logIfError`: one line of the log for a non-nil error. -/
def logEvents {V C : Type} (lead : String) : Option GoError → List (Event V C)
  | none => []
  | some err => [.logPrintf (lead ++ err.Error ++ "\n")]

/-- Formatting verbs for payloads that are kept as their printed text. -/
def textFmt : Fmt String String := ⟨id, id⟩

/-! ## Sequencing and projections of runs -/

theorem emit_bind {V C β : Type} (e : Event V C) (k : Unit → Run V C β) :
    (emit e).bind k = ⟨e :: (k ()).events, (k ()).res⟩ := rfl

theorem processedOf_append {V C : Type} (xs ys : List (Event V C)) :
    processedOf (xs ++ ys) = processedOf xs ++ processedOf ys := by
  induction xs with
  | nil => rfl
  | cons x xs ih => cases x <;> simp [processedOf, ih]

theorem stdoutOf_append {V C : Type} (xs ys : List (Event V C)) :
    stdoutOf (xs ++ ys) = stdoutOf xs ++ stdoutOf ys := by
  induction xs with
  | nil => simp [stdoutOf]
  | cons x xs ih => cases x <;> simp [stdoutOf, ih, String.append_assoc]

theorem queriesOf_append {V C : Type} (xs ys : List (Event V C)) :
    queriesOf (xs ++ ys) = queriesOf xs ++ queriesOf ys := by
  induction xs with
  | nil => rfl
  | cons x xs ih => cases x <;> simp [queriesOf, ih]

/-- The events of `processMessage` are writes to standard output only. -/
theorem printBlocks_only_stdout {V C : Type} (F : Fmt V C) (bs : List (ContentBlock V)) :
    ∀ ev ∈ printBlocks F bs, ∃ s, ev = .stdout s := by
  induction bs with
  | nil => simp [printBlocks]
  | cons b bs ih =>
      intro ev hev
      simp only [printBlocks, List.mem_append] at hev
      rcases hev with h | h
      · cases b <;> simp [printBlock] at h <;> exact ⟨_, h⟩
      · exact ih ev h

theorem processMessage_only_stdout {V C : Type} (F : Fmt V C) (m : Message V C) :
    ∀ ev ∈ (processMessage F m).events, ∃ s, ev = .stdout s := by
  intro ev hev
  cases m with
  | UserMessage c => simp [processMessage] at hev; exact ⟨_, hev⟩
  | AssistantMessage c =>
      simp only [processMessage, List.mem_append, List.mem_singleton] at hev
      rcases hev with (h | h) | h
      · exact ⟨_, h⟩
      · exact printBlocks_only_stdout F c ev h
      · exact ⟨_, h⟩
  | SystemMessage s d => simp [processMessage] at hev; exact ⟨_, hev⟩
  | unrecognised t => simp [processMessage] at hev; exact ⟨_, hev⟩
  | ResultMessage sid dur cost isErr sm =>
      cases cost with
      | none => simp [processMessage] at hev
      | some c => simp [processMessage] at hev; exact ⟨_, hev⟩

theorem processedOf_of_only_stdout {V C : Type} (es : List (Event V C))
    (h : ∀ ev ∈ es, ∃ s, ev = .stdout s) : processedOf es = [] := by
  induction es with
  | nil => rfl
  | cons x xs ih =>
      obtain ⟨s, hs⟩ := h x (List.mem_cons_self _ _)
      subst hs
      simpa [processedOf] using ih (fun ev hev => h ev (List.mem_cons_of_mem _ hev))

theorem processedOf_processMessage {V C : Type} (F : Fmt V C) (m : Message V C) :
    processedOf (processMessage F m).events = [] :=
  processedOf_of_only_stdout _ (processMessage_only_stdout F m)

/-! ## The consume loop -/

theorem rangeLoop_cons_nil {V C : Type} (F : Fmt V C) (m : Message V C)
    (rest : List (Message V C)) (h : (processMessage F m).res = .ret none) :
    rangeLoop F (m :: rest)
      = ⟨.processMessage m :: ((processMessage F m).events ++ (rangeLoop F rest).events),
          (rangeLoop F rest).res⟩ := by
  simp [rangeLoop, emit, Run.bind, h]

theorem rangeLoop_cons_error {V C : Type} (F : Fmt V C) (m : Message V C)
    (rest : List (Message V C)) (e : GoError) (h : (processMessage F m).res = .ret (some e)) :
    rangeLoop F (m :: rest)
      = ⟨.processMessage m :: (processMessage F m).events, .ret (some e)⟩ := by
  simp [rangeLoop, emit, Run.bind, h]

theorem rangeLoop_cons_panic {V C : Type} (F : Fmt V C) (m : Message V C)
    (rest : List (Message V C)) (p : String) (h : (processMessage F m).res = .panic p) :
    rangeLoop F (m :: rest)
      = ⟨.processMessage m :: (processMessage F m).events, .panic p⟩ := by
  simp [rangeLoop, emit, Run.bind, h]

/-- After the loop each example returns the loop's error, or nil: the tail
`return err` / `return nil` adds no effect. -/
theorem loop_then_return {V C : Type} (r : Run V C (Option GoError)) :
    (r.bind fun err =>
        match err with
        | some e => (⟨[], .ret (some e)⟩ : Run V C (Option GoError))
        | none => ⟨[], .ret none⟩) = r := by
  obtain ⟨ev, res⟩ := r
  cases res with
  | ret a => cases a <;> simp [Run.bind]
  | panic p => simp [Run.bind]

theorem simpleQuery_of_stream {V C : Type} (F : Fmt V C) (E : Env V C) (ctx : Context)
    (ms : List (Message V C)) (h : E.Query ctx "What is 2 + 2?" none = .ok ms) :
    simpleQuery F E ctx
      = ⟨.Query ctx "What is 2 + 2?" none :: (rangeLoop F ms).events, (rangeLoop F ms).res⟩ := by
  simp only [simpleQuery, h, loop_then_return]
  rfl

theorem queryWithOptions_of_stream {V C : Type} (F : Fmt V C) (E : Env V C) (ctx : Context)
    (ms : List (Message V C))
    (h : E.Query ctx "Tell me a short joke" (some (optionsOfQueryWithOptions E)) = .ok ms) :
    queryWithOptions F E ctx
      = ⟨.Query ctx "Tell me a short joke" (some (optionsOfQueryWithOptions E))
            :: (rangeLoop F ms).events, (rangeLoop F ms).res⟩ := by
  simp only [queryWithOptions, h, loop_then_return]
  rfl

theorem processMessage_of_not_result {V C : Type} (F : Fmt V C) (m : Message V C)
    (h : m.isResult = false) : (processMessage F m).res = .ret none := by
  cases m <;> simp [processMessage, Message.isResult] at h ⊢

theorem rangeLoop_of_invariant {V C : Type} (F : Fmt V C) (ms : List (Message V C))
    (h : streamInvariant ms = true) :
    processedOf (rangeLoop F ms).events = ms
      ∧ (rangeLoop F ms).res
          = .ret (if finalIsError ms then some (Errorf "query ended with error") else none) := by
  induction ms with
  | nil => simp [streamInvariant] at h
  | cons m rest ih =>
      cases rest with
      | nil =>
          simp only [streamInvariant, Bool.and_eq_true] at h
          cases m with
          | ResultMessage sid dur cost isErr sm =>
              cases cost with
              | none => simp [Message.costPresent] at h
              | some c =>
                  cases isErr
                  · rw [rangeLoop_cons_nil F _ _ (by simp [processMessage])]
                    simp [processedOf, processedOf_append, processedOf_processMessage, rangeLoop,
                      finalIsError, Message.isErrorResult]
                  · rw [rangeLoop_cons_error F _ _ (Errorf "query ended with error")
                      (by simp [processMessage])]
                    simp [processedOf, processedOf_processMessage, finalIsError,
                      Message.isErrorResult]
          | UserMessage c => simp [Message.isResult] at h
          | AssistantMessage c => simp [Message.isResult] at h
          | SystemMessage s d => simp [Message.isResult] at h
          | unrecognised t => simp [Message.isResult] at h
      | cons m2 rest2 =>
          simp only [streamInvariant, Bool.and_eq_true, Bool.not_eq_true'] at h
          have hm := processMessage_of_not_result F m h.1
          have ih2 := ih h.2
          rw [rangeLoop_cons_nil F _ _ hm]
          simp [processedOf, processedOf_append, processedOf_processMessage, ih2.1, ih2.2,
            finalIsError]

/-! ## `queryWithTools`: unfolding -/

/-- The events of the consume loop are calls of `processMessage` and writes to
standard output. -/
theorem rangeLoop_events_kind {V C : Type} (F : Fmt V C) (ms : List (Message V C)) :
    ∀ ev ∈ (rangeLoop F ms).events, (∃ s, ev = .stdout s) ∨ (∃ m, ev = .processMessage m) := by
  induction ms with
  | nil => simp [rangeLoop]
  | cons m rest ih =>
      intro ev hev
      have hhead : ∀ x ∈ Event.processMessage m :: (processMessage F m).events,
          (∃ s, x = Event.stdout s) ∨ (∃ m2, x = Event.processMessage m2) := by
        intro x hx
        rcases List.mem_cons.mp hx with h | h
        · exact Or.inr ⟨m, h⟩
        · exact Or.inl (processMessage_only_stdout F m x h)
      cases hm : (processMessage F m).res with
      | panic p =>
          rw [rangeLoop_cons_panic F m rest p hm] at hev
          exact hhead ev hev
      | ret a =>
          cases a with
          | none =>
              rw [rangeLoop_cons_nil F m rest hm] at hev
              simp only [List.mem_cons, List.mem_append] at hev
              rcases hev with h | h | h
              · exact Or.inr ⟨m, h⟩
              · exact Or.inl (processMessage_only_stdout F m ev h)
              · exact ih ev h
          | some e =>
              rw [rangeLoop_cons_error F m rest e hm] at hev
              exact hhead ev hev

theorem queriesOf_rangeLoop {V C : Type} (F : Fmt V C) (ms : List (Message V C)) :
    queriesOf (rangeLoop F ms).events = [] := by
  have h := rangeLoop_events_kind F ms
  generalize (rangeLoop F ms).events = es at h
  induction es with
  | nil => rfl
  | cons x xs ih =>
      have hxs := ih (fun ev hev => h ev (List.mem_cons_of_mem _ hev))
      rcases h x (List.mem_cons_self _ _) with ⟨s, hs⟩ | ⟨m, hm⟩
      · subst hs; simpa [queriesOf] using hxs
      · subst hm; simpa [queriesOf] using hxs

theorem verifyFile_eq {V C : Type} (E : Env V C) (tempDir : String) :
    verifyFile E tempDir = ⟨verifyEvents E tempDir, .ret ()⟩ := by
  unfold verifyFile verifyEvents
  cases E.ReadFile (tempDir ++ "/hello.txt") <;> rfl

theorem toolsAfterQuery_of_nil {V C : Type} (F : Fmt V C) (E : Env V C) (tempDir : String)
    (ms : List (Message V C)) (h : (rangeLoop F ms).res = .ret none) :
    toolsAfterQuery F E tempDir ms
      = ⟨(rangeLoop F ms).events ++ verifyEvents E tempDir, .ret none⟩ := by
  simp [toolsAfterQuery, Run.bind, h, verifyFile_eq]

theorem toolsAfterQuery_of_error {V C : Type} (F : Fmt V C) (E : Env V C) (tempDir : String)
    (ms : List (Message V C)) (e : GoError) (h : (rangeLoop F ms).res = .ret (some e)) :
    toolsAfterQuery F E tempDir ms = ⟨(rangeLoop F ms).events, .ret (some e)⟩ := by
  simp [toolsAfterQuery, Run.bind, h]

theorem toolsAfterQuery_of_panic {V C : Type} (F : Fmt V C) (E : Env V C) (tempDir : String)
    (ms : List (Message V C)) (p : String) (h : (rangeLoop F ms).res = .panic p) :
    toolsAfterQuery F E tempDir ms = ⟨(rangeLoop F ms).events, .panic p⟩ := by
  simp [toolsAfterQuery, Run.bind, h]

theorem queryWithTools_of_mkdir_error {V C : Type} (F : Fmt V C) (E : Env V C) (ctx : Context)
    (err : GoError) (h : E.MkdirTemp "" "claude-sdk-example" = .error err) :
    queryWithTools F E ctx
      = ⟨[.MkdirTemp "" "claude-sdk-example"],
          .ret (some (ErrorfW "failed to create temp dir: " err))⟩ := by
  simp only [queryWithTools, h]
  rfl

theorem queryWithTools_of_query_error {V C : Type} (F : Fmt V C) (E : Env V C) (ctx : Context)
    (dir : String) (e : GoError) (hmk : E.MkdirTemp "" "claude-sdk-example" = .ok dir)
    (hq : E.Query ctx toolsPrompt (some (optionsOfQueryWithTools E dir)) = .error e) :
    queryWithTools F E ctx
      = ⟨[.MkdirTemp "" "claude-sdk-example",
            .Query ctx toolsPrompt (some (optionsOfQueryWithTools E dir)), .RemoveAll dir],
          .ret (some (ErrorfW "failed to query: " e))⟩ := by
  simp only [queryWithTools, hmk, hq]
  rfl

theorem queryWithTools_of_stream {V C : Type} (F : Fmt V C) (E : Env V C) (ctx : Context)
    (dir : String) (ms : List (Message V C))
    (hmk : E.MkdirTemp "" "claude-sdk-example" = .ok dir)
    (hq : E.Query ctx toolsPrompt (some (optionsOfQueryWithTools E dir)) = .ok ms) :
    queryWithTools F E ctx
      = ⟨.MkdirTemp "" "claude-sdk-example"
            :: (.Query ctx toolsPrompt (some (optionsOfQueryWithTools E dir))
              :: (toolsAfterQuery F E dir ms).events ++ [.RemoveAll dir]),
          (toolsAfterQuery F E dir ms).res⟩ := by
  simp only [queryWithTools, hmk, hq]
  rfl

/-! ## The consume loop: results -/

/-- An error that leaves the consume loop is the one `processMessage` builds. -/
theorem rangeLoop_error_eq {V C : Type} (F : Fmt V C) (ms : List (Message V C)) (e : GoError)
    (h : (rangeLoop F ms).res = .ret (some e)) : e = Errorf "query ended with error" := by
  induction ms with
  | nil => simp [rangeLoop] at h
  | cons m rest ih =>
      cases hm : (processMessage F m).res with
      | panic p => rw [rangeLoop_cons_panic F m rest p hm] at h; simp at h
      | ret a =>
          cases a with
          | none => rw [rangeLoop_cons_nil F m rest hm] at h; exact ih h
          | some e2 =>
              rw [rangeLoop_cons_error F m rest e2 hm] at h
              simp only [Outcome.ret.injEq, Option.some.injEq] at h
              subst h
              cases m with
              | ResultMessage sid dur cost isErr sm =>
                  cases cost with
                  | none => simp [processMessage] at hm
                  | some c =>
                      cases isErr <;> simp [processMessage] at hm
                      exact hm.symm
              | UserMessage c => simp [processMessage] at hm
              | AssistantMessage c => simp [processMessage] at hm
              | SystemMessage s d => simp [processMessage] at hm
              | unrecognised t => simp [processMessage] at hm

/-- The loop hands the messages to `processMessage` in arrival order: what it
has processed is an initial segment of the stream. -/
theorem rangeLoop_processed_take {V C : Type} (F : Fmt V C) (ms : List (Message V C)) :
    ∃ k, processedOf (rangeLoop F ms).events = ms.take k := by
  induction ms with
  | nil => exact ⟨0, rfl⟩
  | cons m rest ih =>
      obtain ⟨k, hk⟩ := ih
      cases hm : (processMessage F m).res with
      | panic p =>
          refine ⟨1, ?_⟩
          rw [rangeLoop_cons_panic F m rest p hm]
          simp [processedOf, processedOf_processMessage]
      | ret a =>
          cases a with
          | none =>
              refine ⟨k + 1, ?_⟩
              rw [rangeLoop_cons_nil F m rest hm]
              simp [processedOf, processedOf_append, processedOf_processMessage, hk]
          | some e =>
              refine ⟨1, ?_⟩
              rw [rangeLoop_cons_error F m rest e hm]
              simp [processedOf, processedOf_processMessage]

/-- When `processMessage` returns nil on every message, the loop processes the
whole stream, falls out of the loop, and has written the outputs of the messages
one after the other. -/
theorem rangeLoop_of_all_nil {V C : Type} (F : Fmt V C) (ms : List (Message V C))
    (h : ∀ m ∈ ms, (processMessage F m).returnsNil) :
    (rangeLoop F ms).res = .ret none
      ∧ processedOf (rangeLoop F ms).events = ms
      ∧ stdoutOf (rangeLoop F ms).events
          = stdoutOf (ms.flatMap fun m => (processMessage F m).events) := by
  induction ms with
  | nil => simp [rangeLoop, processedOf, stdoutOf]
  | cons m rest ih =>
      have hm : (processMessage F m).res = .ret none := h m (List.mem_cons_self _ _)
      obtain ⟨h1, h2, h3⟩ := ih (fun x hx => h x (List.mem_cons_of_mem _ hx))
      rw [rangeLoop_cons_nil F m rest hm]
      simp [processedOf, processedOf_append, processedOf_processMessage, stdoutOf,
        stdoutOf_append, h1, h2, h3]

/-- The loop stops at the first message on which `processMessage` returns an
error, when it returned nil on all the messages before it. -/
theorem rangeLoop_first_error {V C : Type} (F : Fmt V C) (init : List (Message V C))
    (m : Message V C) (rest : List (Message V C)) (e : GoError)
    (hinit : ∀ x ∈ init, (processMessage F x).returnsNil)
    (hm : (processMessage F m).res = .ret (some e)) :
    (rangeLoop F (init ++ m :: rest)).res = .ret (some e)
      ∧ processedOf (rangeLoop F (init ++ m :: rest)).events = init ++ [m] := by
  induction init with
  | nil =>
      rw [List.nil_append, rangeLoop_cons_error F m rest e hm]
      simp [processedOf, processedOf_processMessage]
  | cons x xs ih =>
      have hx : (processMessage F x).res = .ret none := hinit x (List.mem_cons_self _ _)
      obtain ⟨h1, h2⟩ := ih (fun y hy => hinit y (List.mem_cons_of_mem _ hy))
      rw [List.cons_append, rangeLoop_cons_nil F x _ hx]
      simp [processedOf, processedOf_append, processedOf_processMessage, h1, h2]

/-- Claim C3.  When `Query` answers a stream that satisfies the stream invariant
(one `ResultMessage`, the last item, with its cost present), `simpleQuery` and
`queryWithOptions` each hand every message of the stream to `processMessage`, in
order, and return: a non-nil error exactly when the final result has `IsError`
true, and nil exactly when it has not. -/
theorem consume_of_stream_invariant {V C : Type} (F : Fmt V C) (E : Env V C) (ctx : Context) :
    (∀ ms, streamInvariant ms = true → E.Query ctx "What is 2 + 2?" none = .ok ms →
        processedOf (simpleQuery F E ctx).events = ms
          ∧ ((simpleQuery F E ctx).returnsError ↔ finalIsError ms = true)
          ∧ ((simpleQuery F E ctx).returnsNil ↔ finalIsError ms = false))
      ∧ (∀ ms, streamInvariant ms = true →
        E.Query ctx "Tell me a short joke" (some (optionsOfQueryWithOptions E)) = .ok ms →
        processedOf (queryWithOptions F E ctx).events = ms
          ∧ ((queryWithOptions F E ctx).returnsError ↔ finalIsError ms = true)
          ∧ ((queryWithOptions F E ctx).returnsNil ↔ finalIsError ms = false)) := by
  constructor
  · intro ms hinv h1
    obtain ⟨hp, hr⟩ := rangeLoop_of_invariant F ms hinv
    rw [simpleQuery_of_stream F E ctx ms h1]
    simp only [Run.returnsError, Run.returnsNil, processedOf, hp, hr]
    cases finalIsError ms <;> simp
  · intro ms hinv h2
    obtain ⟨hp, hr⟩ := rangeLoop_of_invariant F ms hinv
    rw [queryWithOptions_of_stream F E ctx ms h2]
    simp only [Run.returnsError, Run.returnsNil, processedOf, hp, hr]
    cases finalIsError ms <;> simp

/-- Witness of claim C3: on the priced example stream `simpleQuery` processes
both messages and `queryWithOptions` returns nil. -/
theorem consume_of_stream_invariant_witness :
    streamInvariant pricedStream = true
      ∧ processedOf (simpleQuery textFmt (constEnv (.ok pricedStream) (.ok "/tmp/d") (.ok ""))
          Context.Background).events = pricedStream
      ∧ (queryWithOptions textFmt (constEnv (.ok pricedStream) (.ok "/tmp/d") (.ok ""))
          Context.Background).returnsNil :=
  have h := consume_of_stream_invariant textFmt
    (constEnv (.ok pricedStream) (.ok "/tmp/d") (.ok "")) Context.Background
  ⟨rfl, (h.1 pricedStream rfl rfl).1, (h.2 pricedStream rfl rfl).2.2.mpr rfl⟩

/-- Claim C4, at the failing input.  On the stream of the specification's
example, whose result carries no total cost, `simpleQuery` hands both messages
to `processMessage`, the assistant message first, and then does not return nil:
it panics on the nil pointer inside the second call. -/
theorem simpleQuery_specStream_panics :
    processedOf (simpleQuery textFmt (constEnv (.ok specStream) (.ok "/tmp/d") (.ok ""))
        Context.Background).events = specStream
      ∧ (simpleQuery textFmt (constEnv (.ok specStream) (.ok "/tmp/d") (.ok ""))
          Context.Background).res = .panic nilDereference
      ∧ ¬ (simpleQuery textFmt (constEnv (.ok specStream) (.ok "/tmp/d") (.ok ""))
          Context.Background).returnsNil := by
  refine ⟨rfl, rfl, ?_⟩
  intro h
  have h2 : (simpleQuery textFmt (constEnv (.ok specStream) (.ok "/tmp/d") (.ok ""))
      Context.Background).res = .panic nilDereference := rfl
  rw [Run.returnsNil, h2] at h
  exact Outcome.noConfusion h

/-! ## The example queries: results -/

theorem toolsAfterQuery_error_eq {V C : Type} (F : Fmt V C) (E : Env V C) (dir : String)
    (ms : List (Message V C)) (e : GoError)
    (h : (toolsAfterQuery F E dir ms).res = .ret (some e)) :
    e = Errorf "query ended with error" := by
  cases hl : (rangeLoop F ms).res with
  | panic p => rw [toolsAfterQuery_of_panic F E dir ms p hl] at h; simp at h
  | ret a =>
      cases a with
      | none => rw [toolsAfterQuery_of_nil F E dir ms hl] at h; simp at h
      | some e2 =>
          rw [toolsAfterQuery_of_error F E dir ms e2 hl] at h
          simp only [Outcome.ret.injEq, Option.some.injEq] at h
          subst h
          exact rangeLoop_error_eq F ms e2 hl

/-- Claim C5.  When `Query` answers an immediate error `e`, each of
`simpleQuery`, `queryWithOptions` and `queryWithTools` (once its directory
exists) returns the error `fmt.Errorf("failed to query: %w", e)`, whose text is
"failed to query: " followed by the text of `e` and which unwraps to `e`, and
calls `processMessage` zero times.  When `Query` answers a stream, every error
that one of them returns is the "query ended with error" of `processMessage`,
which is no "failed to query" error. -/
theorem query_error_is_wrapped {V C : Type} (F : Fmt V C) (E : Env V C) (ctx : Context) :
    (∀ e, E.Query ctx "What is 2 + 2?" none = .error e →
        (simpleQuery F E ctx).res = .ret (some (ErrorfW "failed to query: " e))
          ∧ processedOf (simpleQuery F E ctx).events = [])
      ∧ (∀ e, E.Query ctx "Tell me a short joke" (some (optionsOfQueryWithOptions E)) = .error e →
        (queryWithOptions F E ctx).res = .ret (some (ErrorfW "failed to query: " e))
          ∧ processedOf (queryWithOptions F E ctx).events = [])
      ∧ (∀ dir e, E.MkdirTemp "" "claude-sdk-example" = .ok dir →
        E.Query ctx toolsPrompt (some (optionsOfQueryWithTools E dir)) = .error e →
        (queryWithTools F E ctx).res = .ret (some (ErrorfW "failed to query: " e))
          ∧ processedOf (queryWithTools F E ctx).events = [])
      ∧ (∀ e, (ErrorfW "failed to query: " e).Error = "failed to query: " ++ e.Error
          ∧ (ErrorfW "failed to query: " e).Unwrap = some e)
      ∧ (∀ ms, E.Query ctx "What is 2 + 2?" none = .ok ms →
        ∀ err, (simpleQuery F E ctx).res = .ret (some err) →
          err = Errorf "query ended with error" ∧ ∀ e, err ≠ ErrorfW "failed to query: " e)
      ∧ (∀ ms, E.Query ctx "Tell me a short joke" (some (optionsOfQueryWithOptions E)) = .ok ms →
        ∀ err, (queryWithOptions F E ctx).res = .ret (some err) →
          err = Errorf "query ended with error" ∧ ∀ e, err ≠ ErrorfW "failed to query: " e)
      ∧ (∀ dir ms, E.MkdirTemp "" "claude-sdk-example" = .ok dir →
        E.Query ctx toolsPrompt (some (optionsOfQueryWithTools E dir)) = .ok ms →
        ∀ err, (queryWithTools F E ctx).res = .ret (some err) →
          err = Errorf "query ended with error" ∧ ∀ e, err ≠ ErrorfW "failed to query: " e) := by
  have hne : ∀ err, err = Errorf "query ended with error" →
      err = Errorf "query ended with error" ∧ ∀ e, err ≠ ErrorfW "failed to query: " e := by
    intro err h
    refine ⟨h, ?_⟩
    intro e he
    rw [h] at he
    simp [Errorf, ErrorfW] at he
  refine ⟨?_, ?_, ?_, ?_, ?_, ?_, ?_⟩
  · intro e h
    have hrun : simpleQuery F E ctx
        = ⟨[.Query ctx "What is 2 + 2?" none],
            .ret (some (ErrorfW "failed to query: " e))⟩ := by
      simp only [simpleQuery, h]
      rfl
    rw [hrun]
    exact ⟨rfl, rfl⟩
  · intro e h
    have hrun : queryWithOptions F E ctx
        = ⟨[.Query ctx "Tell me a short joke" (some (optionsOfQueryWithOptions E))],
            .ret (some (ErrorfW "failed to query: " e))⟩ := by
      simp only [queryWithOptions, h]
      rfl
    rw [hrun]
    exact ⟨rfl, rfl⟩
  · intro dir e hmk hq
    rw [queryWithTools_of_query_error F E ctx dir e hmk hq]
    exact ⟨rfl, rfl⟩
  · intro e
    exact ⟨rfl, rfl⟩
  · intro ms h err herr
    rw [simpleQuery_of_stream F E ctx ms h] at herr
    exact hne err (rangeLoop_error_eq F ms err herr)
  · intro ms h err herr
    rw [queryWithOptions_of_stream F E ctx ms h] at herr
    exact hne err (rangeLoop_error_eq F ms err herr)
  · intro dir ms hmk hq err herr
    rw [queryWithTools_of_stream F E ctx dir ms hmk hq] at herr
    exact hne err (toolsAfterQuery_error_eq F E dir ms err herr)

/-- Witness of claim C5: `Query` answers a startup error to each example. -/
theorem query_error_is_wrapped_witness :
    (simpleQuery textFmt (constEnv (.error startupError) (.ok "/tmp/d") (.ok ""))
          Context.Background).res
        = .ret (some (.wrapError "failed to query: claude CLI not found" startupError))
      ∧ (queryWithOptions textFmt (constEnv (.error startupError) (.ok "/tmp/d") (.ok ""))
          Context.Background).res
        = .ret (some (ErrorfW "failed to query: " startupError))
      ∧ processedOf (queryWithTools textFmt (constEnv (.error startupError) (.ok "/tmp/d") (.ok ""))
          Context.Background).events = []
      ∧ ∀ err, (simpleQuery textFmt (constEnv (.ok pricedStream) (.ok "/tmp/d") (.ok ""))
          Context.Background).res = .ret (some err) → err = Errorf "query ended with error" :=
  have h := query_error_is_wrapped textFmt
    (constEnv (.error startupError) (.ok "/tmp/d") (.ok "")) Context.Background
  have g := query_error_is_wrapped textFmt
    (constEnv (.ok pricedStream) (.ok "/tmp/d") (.ok "")) Context.Background
  ⟨(h.1 startupError rfl).1, (h.2.1 startupError rfl).1,
    (h.2.2.1 "/tmp/d" startupError rfl rfl).2,
    fun err herr => (g.2.2.2.2.1 pricedStream rfl err herr).1⟩

/-- Claim C6.  The configuration that each example hands to `Query`, and the only
call of `Query` it makes: `simpleQuery` hands an absent configuration;
`queryWithOptions` hands the defaults with the system prompt and the maximum
turns (1, positive) set and the other three fields as in the defaults;
`queryWithTools` hands the defaults with the allowed tools, the permission mode
and the working directory (the directory that `MkdirTemp` answered) set and the
system prompt and the maximum turns as in the defaults. -/
theorem options_handed_to_Query {V C : Type} (F : Fmt V C) (E : Env V C) (ctx : Context) :
    queriesOf (simpleQuery F E ctx).events = [(ctx, "What is 2 + 2?", none)]
      ∧ queriesOf (queryWithOptions F E ctx).events
          = [(ctx, "Tell me a short joke",
              some ⟨some "You are a helpful assistant that responds concisely.", some 1,
                E.NewClaudeCodeOptions.AllowedTools, E.NewClaudeCodeOptions.PermissionMode,
                E.NewClaudeCodeOptions.Cwd⟩)]
      ∧ (0 : Int) < 1
      ∧ (∀ dir, E.MkdirTemp "" "claude-sdk-example" = .ok dir →
          queriesOf (queryWithTools F E ctx).events
            = [(ctx, toolsPrompt,
                some ⟨E.NewClaudeCodeOptions.SystemPrompt, E.NewClaudeCodeOptions.MaxTurns,
                  ["Read", "Write", "Bash"], some PermissionMode.PermissionModeAcceptEdits,
                  some dir⟩)])
      ∧ (∀ err, E.MkdirTemp "" "claude-sdk-example" = .error err →
          queriesOf (queryWithTools F E ctx).events = []) := by
  refine ⟨?_, ?_, by decide, ?_, ?_⟩
  · cases h : E.Query ctx "What is 2 + 2?" none with
    | error e =>
        have hrun : simpleQuery F E ctx
            = ⟨[.Query ctx "What is 2 + 2?" none],
                .ret (some (ErrorfW "failed to query: " e))⟩ := by
          simp only [simpleQuery, h]
          rfl
        rw [hrun]
        rfl
    | ok ms =>
        rw [simpleQuery_of_stream F E ctx ms h]
        simp [queriesOf, queriesOf_rangeLoop]
  · cases h : E.Query ctx "Tell me a short joke" (some (optionsOfQueryWithOptions E)) with
    | error e =>
        have hrun : queryWithOptions F E ctx
            = ⟨[.Query ctx "Tell me a short joke" (some (optionsOfQueryWithOptions E))],
                .ret (some (ErrorfW "failed to query: " e))⟩ := by
          simp only [queryWithOptions, h]
          rfl
        rw [hrun]
        rfl
    | ok ms =>
        rw [queryWithOptions_of_stream F E ctx ms h]
        simp [queriesOf, queriesOf_rangeLoop, optionsOfQueryWithOptions]
  · intro dir hmk
    cases h : E.Query ctx toolsPrompt (some (optionsOfQueryWithTools E dir)) with
    | error e =>
        rw [queryWithTools_of_query_error F E ctx dir e hmk h]
        rfl
    | ok ms =>
        rw [queryWithTools_of_stream F E ctx dir ms hmk h]
        have hq : queriesOf (toolsAfterQuery F E dir ms).events = [] := by
          cases hl : (rangeLoop F ms).res with
          | panic p =>
              rw [toolsAfterQuery_of_panic F E dir ms p hl]
              exact queriesOf_rangeLoop F ms
          | ret a =>
              cases a with
              | none =>
                  rw [toolsAfterQuery_of_nil F E dir ms hl]
                  simp only [queriesOf_append, queriesOf_rangeLoop, verifyEvents]
                  cases E.ReadFile (dir ++ "/hello.txt") <;> rfl
              | some e2 =>
                  rw [toolsAfterQuery_of_error F E dir ms e2 hl]
                  exact queriesOf_rangeLoop F ms
        simp [queriesOf, queriesOf_append, hq, optionsOfQueryWithTools]
  · intro err hmk
    rw [queryWithTools_of_mkdir_error F E ctx err hmk]
    rfl

/-- Witness of claim C6: the directory `/tmp/d` reaches `Query` as the working
directory. -/
theorem options_handed_to_Query_witness :
    queriesOf (queryWithTools textFmt (constEnv (.ok pricedStream) (.ok "/tmp/d") (.ok ""))
        Context.Background).events
      = [(Context.Background, toolsPrompt,
          some ⟨none, none, ["Read", "Write", "Bash"],
            some PermissionMode.PermissionModeAcceptEdits, some "/tmp/d"⟩)] :=
  (options_handed_to_Query textFmt (constEnv (.ok pricedStream) (.ok "/tmp/d") (.ok ""))
    Context.Background).2.2.2.1 "/tmp/d" rfl

/-! ## `processMessage` on an assistant message -/

theorem stdoutOf_printBlocks {V C : Type} (F : Fmt V C) (bs : List (ContentBlock V)) :
    stdoutOf (printBlocks F bs) = specRenderBlocks F bs := by
  induction bs with
  | nil => rfl
  | cons b rest ih =>
      cases b <;> simp [printBlocks, printBlock, specRenderBlocks, specRenderBlock, stdoutOf, ih]

theorem stdoutOf_assistant {V C : Type} (F : Fmt V C) (bs : List (ContentBlock V)) :
    stdoutOf (processMessage F (.AssistantMessage bs)).events
      = "[Assistant]: " ++ specRenderBlocks F bs ++ "\n" := by
  simp [processMessage, stdoutOf, stdoutOf_append, stdoutOf_printBlocks, String.append_assoc]

theorem renderBlocks_append {V C : Type} (F : Fmt V C) (xs ys : List (ContentBlock V)) :
    specRenderBlocks F (xs ++ ys) = specRenderBlocks F xs ++ specRenderBlocks F ys := by
  induction xs with
  | nil => simp [specRenderBlocks]
  | cons x xs ih => simp [specRenderBlocks, ih, String.append_assoc]

theorem renderBlocks_texts {V C : Type} (F : Fmt V C) (ts : List String) :
    specRenderBlocks F (ts.map ContentBlock.TextBlock) = concatTexts ts := by
  induction ts with
  | nil => rfl
  | cons t ts ih => simp [specRenderBlocks, specRenderBlock, concatTexts, ih]

/-- Claim C8.  For every `AssistantMessage`, `processMessage` returns nil and
writes "[Assistant]: ", then the renderings of the content blocks in sequence
order, then a newline.  A block of another kind adds nothing: the output is the
same as when the block is left out.  For a message of `TextBlock`s only the
output is "[Assistant]: ", the texts one after the other, and a newline. -/
theorem processMessage_assistant {V C : Type} (F : Fmt V C) :
    (∀ bs, (processMessage F (.AssistantMessage bs)).returnsNil
        ∧ stdoutOf (processMessage F (.AssistantMessage bs)).events
            = "[Assistant]: " ++ specRenderBlocks F bs ++ "\n")
      ∧ (∀ xs ys goType,
          stdoutOf (processMessage F (.AssistantMessage (xs ++ .unlisted goType :: ys))).events
            = stdoutOf (processMessage F (.AssistantMessage (xs ++ ys))).events)
      ∧ (∀ ts : List String,
          stdoutOf (processMessage F (.AssistantMessage (ts.map ContentBlock.TextBlock))).events
            = "[Assistant]: " ++ concatTexts ts ++ "\n") := by
  refine ⟨fun bs => ⟨rfl, stdoutOf_assistant F bs⟩, ?_, ?_⟩
  · intro xs ys goType
    rw [stdoutOf_assistant, stdoutOf_assistant, renderBlocks_append, renderBlocks_append]
    simp [specRenderBlocks, specRenderBlock]
  · intro ts
    rw [stdoutOf_assistant, renderBlocks_texts]

/-! ## `queryWithTools`: the temporary directory and the file check -/

theorem rangeLoop_processed_of_nil {V C : Type} (F : Fmt V C) (ms : List (Message V C))
    (h : (rangeLoop F ms).res = .ret none) : processedOf (rangeLoop F ms).events = ms := by
  induction ms with
  | nil => rfl
  | cons m rest ih =>
      cases hm : (processMessage F m).res with
      | panic p => rw [rangeLoop_cons_panic F m rest p hm] at h; simp at h
      | ret a =>
          cases a with
          | some e => rw [rangeLoop_cons_error F m rest e hm] at h; simp at h
          | none =>
              rw [rangeLoop_cons_nil F m rest hm] at h ⊢
              simp [processedOf, processedOf_append, processedOf_processMessage, ih h]

theorem removeAll_not_mem_rangeLoop {V C : Type} (F : Fmt V C) (ms : List (Message V C))
    (p : String) : Event.RemoveAll p ∉ (rangeLoop F ms).events := by
  intro h
  rcases rangeLoop_events_kind F ms _ h with ⟨s, hs⟩ | ⟨m, hm⟩
  · exact Event.noConfusion hs
  · exact Event.noConfusion hm

theorem removeAll_not_mem_verifyEvents {V C : Type} (E : Env V C) (dir p : String) :
    Event.RemoveAll p ∉ verifyEvents E dir := by
  unfold verifyEvents
  cases E.ReadFile (dir ++ "/hello.txt") <;> simp

theorem removeAll_not_mem_toolsAfterQuery {V C : Type} (F : Fmt V C) (E : Env V C)
    (dir : String) (ms : List (Message V C)) (p : String) :
    Event.RemoveAll p ∉ (toolsAfterQuery F E dir ms).events := by
  cases hl : (rangeLoop F ms).res with
  | panic q =>
      rw [toolsAfterQuery_of_panic F E dir ms q hl]
      exact removeAll_not_mem_rangeLoop F ms p
  | ret a =>
      cases a with
      | none =>
          rw [toolsAfterQuery_of_nil F E dir ms hl]
          simp [removeAll_not_mem_rangeLoop, removeAll_not_mem_verifyEvents]
      | some e =>
          rw [toolsAfterQuery_of_error F E dir ms e hl]
          exact removeAll_not_mem_rangeLoop F ms p

/-- Claim C7.  If `MkdirTemp` fails with `err`, `queryWithTools` performs the
`MkdirTemp` call and nothing else (neither a `Query` nor a `RemoveAll`) and
returns the error built by `fmt.Errorf("failed to create temp dir: %w", err)`:
its text is "failed to create temp dir: " followed by the text of `err`, and it
unwraps to `err`.  If `MkdirTemp` answers a directory, then whatever `Query` and
the stream do (an immediate error, an error or a panic of `processMessage`,
normal completion) the run is `MkdirTemp`, a body without any `RemoveAll`, and
last the `RemoveAll` of that directory; on normal completion the body holds the
processing of the whole stream and the read of `hello.txt`. -/
theorem queryWithTools_tempDir_lifecycle {V C : Type} (F : Fmt V C) (E : Env V C)
    (ctx : Context) :
    (∀ err, E.MkdirTemp "" "claude-sdk-example" = .error err →
        ∃ e, queryWithTools F E ctx = ⟨[.MkdirTemp "" "claude-sdk-example"], .ret (some e)⟩
          ∧ e = .wrapError ("failed to create temp dir: " ++ err.Error) err
          ∧ e.Error = "failed to create temp dir: " ++ err.Error
          ∧ e.Unwrap = some err
          ∧ queriesOf (queryWithTools F E ctx).events = []
          ∧ ∀ p, Event.RemoveAll p ∉ (queryWithTools F E ctx).events)
      ∧ (∀ dir, E.MkdirTemp "" "claude-sdk-example" = .ok dir →
        ∃ body, (queryWithTools F E ctx).events
              = .MkdirTemp "" "claude-sdk-example" :: (body ++ [.RemoveAll dir])
          ∧ (∀ p, Event.RemoveAll p ∉ body)
          ∧ (∀ ms, E.Query ctx toolsPrompt (some (optionsOfQueryWithTools E dir)) = .ok ms →
              (queryWithTools F E ctx).returnsNil →
                processedOf body = ms ∧ Event.ReadFile (dir ++ "/hello.txt") ∈ body)) := by
  refine ⟨?_, ?_⟩
  · intro err h
    refine ⟨.wrapError ("failed to create temp dir: " ++ err.Error) err, ?_, rfl, rfl, rfl, ?_, ?_⟩
    · rw [queryWithTools_of_mkdir_error F E ctx err h]
      rfl
    · rw [queryWithTools_of_mkdir_error F E ctx err h]
      rfl
    · intro p hp
      rw [queryWithTools_of_mkdir_error F E ctx err h] at hp
      simp at hp
  · intro dir hmk
    cases hq : E.Query ctx toolsPrompt (some (optionsOfQueryWithTools E dir)) with
    | error e =>
        refine ⟨[.Query ctx toolsPrompt (some (optionsOfQueryWithTools E dir))], ?_, ?_, ?_⟩
        · rw [queryWithTools_of_query_error F E ctx dir e hmk hq]
          rfl
        · intro p
          simp
        · intro ms hms
          exact Except.noConfusion hms
    | ok ms =>
        refine ⟨.Query ctx toolsPrompt (some (optionsOfQueryWithTools E dir))
            :: (toolsAfterQuery F E dir ms).events, ?_, ?_, ?_⟩
        · rw [queryWithTools_of_stream F E ctx dir ms hmk hq]
        · intro p hp
          rcases List.mem_cons.mp hp with h | h
          · exact Event.noConfusion h
          · exact removeAll_not_mem_toolsAfterQuery F E dir ms p h
        · intro ms2 hms hnil
          have hms2 : ms2 = ms := by
            simp only [Except.ok.injEq] at hms
            exact hms.symm
          subst hms2
          rw [queryWithTools_of_stream F E ctx dir ms2 hmk hq] at hnil
          simp only [Run.returnsNil] at hnil
          cases hl : (rangeLoop F ms2).res with
          | panic q => rw [toolsAfterQuery_of_panic F E dir ms2 q hl] at hnil; simp at hnil
          | ret a =>
              cases a with
              | some e => rw [toolsAfterQuery_of_error F E dir ms2 e hl] at hnil; simp at hnil
              | none =>
                  rw [toolsAfterQuery_of_nil F E dir ms2 hl]
                  constructor
                  · have hv : processedOf (verifyEvents E dir) = [] := by
                      unfold verifyEvents
                      cases E.ReadFile (dir ++ "/hello.txt") <;> rfl
                    show processedOf ((rangeLoop F ms2).events ++ verifyEvents E dir) = ms2
                    rw [processedOf_append, hv, List.append_nil]
                    exact rangeLoop_processed_of_nil F ms2 hl
                  · simp [verifyEvents]

/-- Witness of claim C7: when the directory `/tmp/d` is created, the priced
example stream is consumed, `hello.txt` is read, and the directory is removed
last; when `MkdirTemp` fails with "claude CLI not found", the run is the
`MkdirTemp` call alone and the returned error reads "failed to create temp dir:
claude CLI not found" and unwraps to the error of `MkdirTemp`. -/
theorem queryWithTools_tempDir_lifecycle_witness :
    (∃ body, (queryWithTools textFmt (constEnv (.ok pricedStream) (.ok "/tmp/d") (.ok "Hello"))
            Context.Background).events
          = .MkdirTemp "" "claude-sdk-example" :: (body ++ [.RemoveAll "/tmp/d"])
        ∧ (∀ p, Event.RemoveAll p ∉ body)
        ∧ processedOf body = pricedStream ∧ Event.ReadFile "/tmp/d/hello.txt" ∈ body)
      ∧ (∃ e, queryWithTools textFmt
              (constEnv (.ok pricedStream) (.error startupError) (.ok "Hello")) Context.Background
            = ⟨[.MkdirTemp "" "claude-sdk-example"], .ret (some e)⟩
          ∧ e = .wrapError "failed to create temp dir: claude CLI not found"
              (.errorString "claude CLI not found")
          ∧ e.Error = "failed to create temp dir: claude CLI not found"
          ∧ e.Unwrap = some (.errorString "claude CLI not found")) := by
  have h := queryWithTools_tempDir_lifecycle textFmt
    (constEnv (.ok pricedStream) (.ok "/tmp/d") (.ok "Hello")) Context.Background
  have g := queryWithTools_tempDir_lifecycle textFmt
    (constEnv (.ok pricedStream) (.error startupError) (.ok "Hello")) Context.Background
  obtain ⟨body, h1, h2, h3⟩ := h.2 "/tmp/d" rfl
  obtain ⟨h4, h5⟩ := h3 pricedStream rfl rfl
  obtain ⟨e, g1, g2, g3, g4, _, _⟩ := g.1 startupError rfl
  have htext : "failed to create temp dir: " ++ startupError.Error
      = "failed to create temp dir: claude CLI not found" := by decide
  rw [htext] at g2 g3
  exact ⟨⟨body, h1, h2, h4, h5⟩, ⟨e, g1, g2, g3, g4⟩⟩

/-- Claim C9.  When the directory was created, `Query` answered a stream and
`processMessage` returned nil on every message, `queryWithTools` returns nil
whatever `ReadFile` answers, and it writes the outputs of the messages followed
by the "File created successfully" line when the read succeeds, and by nothing
when the read fails. -/
theorem queryWithTools_result_ignores_file {V C : Type} (F : Fmt V C) (E : Env V C)
    (ctx : Context) (dir : String) (ms : List (Message V C))
    (hmk : E.MkdirTemp "" "claude-sdk-example" = .ok dir)
    (hq : E.Query ctx toolsPrompt (some (optionsOfQueryWithTools E dir)) = .ok ms)
    (hall : ∀ m ∈ ms, (processMessage F m).returnsNil) :
    (queryWithTools F E ctx).returnsNil
      ∧ stdoutOf (queryWithTools F E ctx).events
          = stdoutOf (ms.flatMap fun m => (processMessage F m).events)
            ++ (match E.ReadFile (dir ++ "/hello.txt") with
                | .ok content => "\nFile created successfully! Content: " ++ content ++ "\n"
                | .error _ => "") := by
  obtain ⟨h1, _, h3⟩ := rangeLoop_of_all_nil F ms hall
  rw [queryWithTools_of_stream F E ctx dir ms hmk hq, toolsAfterQuery_of_nil F E dir ms h1]
  refine ⟨rfl, ?_⟩
  simp only [stdoutOf, List.cons_append, stdoutOf_append, h3, verifyEvents]
  cases E.ReadFile (dir ++ "/hello.txt") <;> simp [stdoutOf, stdoutOf_append, h3]

/-- Witness of claim C9: the read of `hello.txt` fails and `queryWithTools`
returns nil all the same, having written the outputs of the messages only. -/
theorem queryWithTools_result_ignores_file_witness :
    (queryWithTools textFmt (constEnv (.ok pricedStream) (.ok "/tmp/d") (.error startupError))
          Context.Background).returnsNil
      ∧ stdoutOf (queryWithTools textFmt
            (constEnv (.ok pricedStream) (.ok "/tmp/d") (.error startupError))
            Context.Background).events
          = stdoutOf (pricedStream.flatMap fun m => (processMessage textFmt m).events) ++ "" :=
  queryWithTools_result_ignores_file textFmt
    (constEnv (.ok pricedStream) (.ok "/tmp/d") (.error startupError)) Context.Background
    "/tmp/d" pricedStream rfl rfl (by
      intro m hm
      simp only [pricedStream, List.mem_cons, List.mem_singleton, List.not_mem_nil,
        or_false] at hm
      rcases hm with h | h <;> subst h <;> rfl)

/-! ## `main`: results -/

theorem logIfError_eq {V C : Type} (lead : String) (err : Option GoError) :
    (logIfError lead err : Run V C Unit) = ⟨logEvents lead err, .ret ()⟩ := by
  cases err <;> rfl

/-- When the three examples return, with errors or without, `main` runs them
once each, in order, on the context it created, logs each non-nil error and goes
on to the next example. -/
theorem main_of_examples_return {V C : Type} (F : Fmt V C) (E : Env V C)
    (r1 r2 r3 : Option GoError)
    (h1 : (simpleQuery F E mainCtx).res = .ret r1)
    (h2 : (queryWithOptions F E mainCtx).res = .ret r2)
    (h3 : (queryWithTools F E mainCtx).res = .ret r3) :
    main F E
      = ⟨[.signalNotify, .stdout "=== Example 1: Simple Query ===\n",
            .invoke "simpleQuery" mainCtx]
          ++ (simpleQuery F E mainCtx).events ++ logEvents "Error in simple query: " r1
          ++ [.stdout "\n=== Example 2: Query with Options ===\n",
            .invoke "queryWithOptions" mainCtx]
          ++ (queryWithOptions F E mainCtx).events
          ++ logEvents "Error in query with options: " r2
          ++ [.stdout "\n=== Example 3: Using Tools ===\n", .invoke "queryWithTools" mainCtx]
          ++ (queryWithTools F E mainCtx).events ++ logEvents "Error in query with tools: " r3
          ++ [.cancel mainCtx], .ret ()⟩ := by
  simp only [mainCtx] at h1 h2 h3 ⊢
  simp only [main, emit_bind, logIfError_eq, Run.defer]
  simp [Run.bind, h1, h2, h3]

/-- When the first example panics, `main` ends there: after the deferred
`cancel` the panic leaves `main`, and no later example is called. -/
theorem main_of_first_panics {V C : Type} (F : Fmt V C) (E : Env V C) (p : String)
    (h1 : (simpleQuery F E mainCtx).res = .panic p) :
    main F E
      = ⟨[.signalNotify, .stdout "=== Example 1: Simple Query ===\n",
            .invoke "simpleQuery" mainCtx]
          ++ (simpleQuery F E mainCtx).events ++ [.cancel mainCtx], .panic p⟩ := by
  simp only [mainCtx] at h1 ⊢
  simp only [main, emit_bind, logIfError_eq, Run.defer]
  simp [Run.bind, h1]

/-- Claim C10, at the failing input.  When the stream of the first example is
the specification's example stream, whose result carries no total cost, `main`
calls `simpleQuery` and ends in the panic of the nil pointer: it calls neither
`queryWithOptions` nor `queryWithTools`. -/
theorem main_specStream_stops_after_first :
    invokedOf (main textFmt (constEnv (.ok specStream) (.ok "/tmp/d") (.ok ""))).events
        = [("simpleQuery", mainCtx)]
      ∧ (main textFmt (constEnv (.ok specStream) (.ok "/tmp/d") (.ok ""))).res
        = .panic nilDereference := by
  rw [main_of_first_panics textFmt (constEnv (.ok specStream) (.ok "/tmp/d") (.ok ""))
    nilDereference rfl]
  exact ⟨rfl, rfl⟩

/-! ## `processMessage`: results -/

/-- Claim C1, at the failing input.  For a `ResultMessage` whose total cost is
absent, `processMessage` does not return: it panics on the nil pointer, having
printed nothing. -/
theorem processMessage_nil_cost_panics {V C : Type} (F : Fmt V C) (sessionID : String)
    (durationMs : Int) (isError : Bool) (summary : V) :
    processMessage F (.ResultMessage sessionID durationMs none isError summary)
        = ⟨[], .panic nilDereference⟩
      ∧ ∀ r, (processMessage F (.ResultMessage sessionID durationMs none isError summary)).res
          ≠ .ret r := by
  constructor
  · rfl
  · intro r h
    simp [processMessage] at h

/-- Claim C2.  For a message whose total cost is present when it is a
`ResultMessage`, `processMessage` returns (it does not panic); it returns a
non-nil error exactly when the message is a `ResultMessage` with `IsError` true,
and nil for every other message, whatever its variant. -/
theorem processMessage_error_iff {V C : Type} (F : Fmt V C) (m : Message V C)
    (hcost : m.costPresent = true) :
    (∃ r, (processMessage F m).res = .ret r)
      ∧ ((∃ e, (processMessage F m).res = .ret (some e)) ↔ m.isErrorResult = true)
      ∧ (m.isErrorResult = false → (processMessage F m).res = .ret none) := by
  cases m with
  | UserMessage c => simp [processMessage, Message.isErrorResult]
  | AssistantMessage c => simp [processMessage, Message.isErrorResult]
  | SystemMessage s d => simp [processMessage, Message.isErrorResult]
  | unrecognised t => simp [processMessage, Message.isErrorResult]
  | ResultMessage sid dur cost isErr sm =>
      cases cost with
      | none => simp [Message.costPresent] at hcost
      | some c => cases isErr <;> simp [processMessage, Message.isErrorResult]

/-- Witness of claim C2: a failed result with its cost present. -/
theorem processMessage_error_iff_witness :
    (Message.ResultMessage "s1" 5 (some "0.0100") true "").costPresent = true
      ∧ (∃ e, (processMessage textFmt (.ResultMessage "s1" 5 (some "0.0100") true "")).res
            = .ret (some e)) :=
  ⟨rfl, (processMessage_error_iff textFmt (.ResultMessage "s1" 5 (some "0.0100") true "") rfl).2.1.mpr
    rfl⟩

end Quickstart
